import Mathlib

/-!
Verification development for the Storm_Damage_Data_Analysis repository.

Part 1 embeds the data-acquisition entry points of `Data_getter.py`
(the `csv_getter` class constructor, the ACS request URLs of
`Population_var` / `MedianIncome_var`, and the module-level `data_getter`
function) as pure Lean functions.  HTTP traffic and the filesystem are
outside the embedding: a method's request is modelled by the URL/year it
would query, and retrieval by the list of variable names that would be
fetched; Python exceptions become an `Except PyError` result.

Part 2 models the statistical core (Dataset, NormalityScorer,
TransformCatalog, TransformSelector, DatasetTransformer, RegressionEngine)
from the specification, since the repository only contains stubs for it.
-/

/-- A raised Python exception, by class and message. -/
inductive PyError where
  | valueError : String → PyError
  | typeError : String → PyError
deriving DecidableEq

/-- The attribute state a successfully constructed `csv_getter` holds
(filesystem fields `PARENT_DIRECTORY` / `data_path` are not modelled). -/
structure CsvGetterState where
  year : Int
  varsArg : List String
  api_key : String
deriving DecidableEq

/-- `[m for m in dir(self) if m.endswith("_var")]`: the six `*_var` methods
of `csv_getter`, in `dir`'s alphabetical order. -/
def varMethods : List String :=
  ["HouseAge_var", "MedianIncome_var", "Population_var",
   "ShorelineCounties_var", "StormDamage_var", "WatershedCounties_var"]

def yearMsg : String := "Year must be between 2010 and 2023."

def keyMsg : String := "Census API key must be provided."

/-- Python truthiness of an optional string: `None` and `""` are falsy. -/
def pyTruthy : Option String → Bool
  | none => false
  | some s => s ≠ ""

/-- `csv_getter.__init__(year, variables, census_api_key)`: first the year
range check (raises `ValueError` with `yearMsg`), then `self.variables`
defaults to the `*_var` method list when `variables` is `None`, then the
API-key truthiness check (raises `ValueError` with `keyMsg`).  Directory
creation follows both checks in the source and is not modelled. -/
def csvGetterInit (year : Int) (varsArg : Option (List String))
    (census_api_key : Option String) : Except PyError CsvGetterState :=
  if 2010 ≤ year ∧ year ≤ 2023 then
    let vars := varsArg.getD varMethods
    match census_api_key with
    | some k => if k = "" then .error (.valueError keyMsg) else .ok ⟨year, vars, k⟩
    | none => .error (.valueError keyMsg)
  else .error (.valueError yearMsg)

/-- The ACS 5-year endpoint URL for a query year, as built by both
`Population_var` and `MedianIncome_var`. -/
def acsUrl (year : Int) : String :=
  "https://api.census.gov/data/" ++ toString year ++ "/acs/acs5"

/-- `Population_var` decrements the instance year (`year -= 1`) before
building its request URL. -/
def populationQueryYear (st : CsvGetterState) : Int := st.year - 1

/-- `MedianIncome_var` uses the instance year unchanged. -/
def medianIncomeQueryYear (st : CsvGetterState) : Int := st.year

def populationUrl (st : CsvGetterState) : String := acsUrl (populationQueryYear st)

def medianIncomeUrl (st : CsvGetterState) : String := acsUrl (medianIncomeQueryYear st)

def noneIterMsg : String := "NoneType object is not iterable"

/-- Attribute names visible through `dir(getter)` on an instance
(methods plus instance attributes); used by `data_getter`'s validation. -/
def dirNames (_st : CsvGetterState) : List String :=
  varMethods ++ ["PARENT_DIRECTORY", "api_key", "check_for_data", "data_path",
                 "methods", "variables", "year"]

/-- Module-level `data_getter(year, census_api_key, variables=None)`:
constructs `csv_getter(year, variables, census_api_key)`, then iterates
over its own `variables` argument — first to validate each name against
`dir(getter)`, then to call each method.  Iterating over `None` raises
`TypeError`; retrieval is modelled by returning the list of variable
names whose methods would be invoked.  `self.variables` is never read. -/
def dataGetter (year : Int) (census_api_key : Option String)
    (varsArg : Option (List String)) : Except PyError (List String) :=
  match csvGetterInit year varsArg census_api_key with
  | .error e => .error e
  | .ok st =>
    match varsArg with
    | none => .error (.typeError noneIterMsg)
    | some vars =>
      if vars.all (fun v => v ∈ dirNames st) then .ok vars
      else .error (.valueError "is not a valid method of csv_getter.")

/-- C8: `csv_getter.__init__` raises `ValueError` iff the year is outside
2010–2023 or the API key is falsy; the year check fires first (its message
wins even when the key is also falsy, and no directory work is reached);
the key message is used when the year is in range but the key is falsy;
otherwise construction succeeds with `self.year = year`,
`self.api_key = census_api_key`, and `self.variables` defaulted. -/
theorem csvGetterInit_spec (year : Int) (varsArg : Option (List String))
    (key : Option String) :
    ((∃ e, csvGetterInit year varsArg key = .error e) ↔
      (¬(2010 ≤ year ∧ year ≤ 2023) ∨ pyTruthy key = false))
    ∧ (¬(2010 ≤ year ∧ year ≤ 2023) →
        csvGetterInit year varsArg key = .error (.valueError yearMsg))
    ∧ ((2010 ≤ year ∧ year ≤ 2023) → pyTruthy key = false →
        csvGetterInit year varsArg key = .error (.valueError keyMsg))
    ∧ (∀ k, (2010 ≤ year ∧ year ≤ 2023) → key = some k → k ≠ "" →
        csvGetterInit year varsArg key = .ok ⟨year, varsArg.getD varMethods, k⟩) := by
  by_cases hy : 2010 ≤ year ∧ year ≤ 2023
  · cases key with
    | none => simp [csvGetterInit, pyTruthy, hy]
    | some k =>
      by_cases hk : k = ""
      · simp [csvGetterInit, pyTruthy, hy, hk]
      · simp [csvGetterInit, pyTruthy, hy, hk]
  · cases key with
    | none => simp [csvGetterInit, pyTruthy, hy]
    | some k =>
      by_cases hk : k = ""
      · simp [csvGetterInit, pyTruthy, hy, hk]
      · simp [csvGetterInit, pyTruthy, hy, hk]

/-- Witness for C8 at a concrete input: year 2005 is out of range, so even
with a truthy key the constructor fails with the year message. -/
theorem csvGetterInit_spec_witness :
    csvGetterInit 2005 none (some "abc") = .error (.valueError yearMsg) :=
  (csvGetterInit_spec 2005 none (some "abc")).2.1 (by decide)

/-- C9: for one and the same `csv_getter` instance, `Population_var`
queries ACS year `self.year - 1` while `MedianIncome_var` queries
`self.year`: two different years, exactly one apart, and each method's
URL is the ACS endpoint for its own query year. -/
theorem acs_query_years (st : CsvGetterState) :
    populationQueryYear st = st.year - 1
    ∧ medianIncomeQueryYear st = st.year
    ∧ populationQueryYear st ≠ medianIncomeQueryYear st
    ∧ medianIncomeQueryYear st - populationQueryYear st = 1
    ∧ populationUrl st = acsUrl (st.year - 1)
    ∧ medianIncomeUrl st = acsUrl st.year := by
  refine ⟨rfl, rfl, ?_, ?_, rfl, rfl⟩
  · simp only [populationQueryYear, medianIncomeQueryYear]
    omega
  · simp only [populationQueryYear, medianIncomeQueryYear]
    omega

/-- Counterexample to C10 as stated: with an out-of-range year the
constructor's `ValueError` fires before the iteration over `variables`,
so `data_getter(2005, "key", None)` does not raise a `TypeError`. -/
theorem dataGetter_none_not_always_typeError :
    dataGetter 2005 (some "key") none = .error (.valueError yearMsg)
    ∧ ∀ msg, dataGetter 2005 (some "key") none ≠ .error (.typeError msg) := by
  refine ⟨rfl, ?_⟩
  intro msg h
  rw [show dataGetter 2005 (some "key") none = .error (.valueError yearMsg) from rfl] at h
  simp at h

/-- C10 (amended): whenever `csv_getter.__init__` succeeds — year within
2010–2023 and a truthy API key — `data_getter` called with
`variables = None` raises `TypeError` before retrieving anything, even
though the constructor itself accepted `variables = None` by defaulting
`self.variables` to the `*_var` method list; `data_getter` only ever
iterates its own `variables` argument. -/
theorem dataGetter_none_typeError (year : Int) (k : String)
    (hy1 : 2010 ≤ year) (hy2 : year ≤ 2023) (hk : k ≠ "") :
    dataGetter year (some k) none = .error (.typeError noneIterMsg)
    ∧ csvGetterInit year none (some k) = .ok ⟨year, varMethods, k⟩ := by
  have hinit : csvGetterInit year none (some k) = .ok ⟨year, varMethods, k⟩ := by
    simp [csvGetterInit, hy1, hy2, hk, Option.getD]
  refine ⟨?_, hinit⟩
  simp [dataGetter, hinit]

/-- Witness for the amended C10 at a concrete input. -/
theorem dataGetter_none_typeError_witness :
    dataGetter 2015 (some "key") none = .error (.typeError noneIterMsg) :=
  (dataGetter_none_typeError 2015 "key" (by decide) (by decide) (by decide)).1

/-!
Part 2: the statistical core.  The repository holds only stubs for the
"Mapper" / "Normalizer" / "MultipleLinearRegression" components, so each
definition below is modelled from the specification, as its doc comment
records.  Real-number analysis replaces floating point: exact equalities
imply the spec's `1e-9` relative-tolerance statements.
-/

/-- Modelled from the spec: error kinds of §7 (the statistical core is
absent from the sources, only stubs exist). -/
inductive PipelineError where
  | insufficientData
  | degenerateVariance
  | domainViolation
  | rankDeficiency
  | schemaMismatch
deriving DecidableEq

/-- Modelled from the spec: `unit_domain` of a Variable (§3). -/
inductive UnitDomain where
  | unrestricted
  | positiveOnly
  | nonNegative
deriving DecidableEq

/-- Modelled from the spec: a Variable (§3) — name, per-row values with
missing markers (`none`), and its unit domain. -/
structure Variable where
  name : String
  values : List (Option ℝ)
  unit_domain : UnitDomain

/-- Modelled from the spec: a Dataset (§3) — ordered row keys and a
name-keyed mapping of Variables (an association list keeps the order). -/
structure Dataset where
  rows : List String
  vars : List (String × Variable)

/-- Modelled from the spec: the transform kinds of §4.2. -/
inductive Kind where
  | identity
  | log
  | sqrt
  | inverse
  | boxCox
  | yeoJohnson
deriving DecidableEq

/-- Modelled from the spec: a TransformSpec (§3) — kind, additive shift
applied before a domain-restricted transform, and power-family lambda. -/
structure TransformSpec where
  kind : Kind
  shift : ℝ
  lambda : ℝ

/-- Modelled from the spec: a NormalityReport (§3). -/
structure NormalityReport where
  score_before : ℝ
  score_after : ℝ
  chosen : TransformSpec

/-- Modelled from the spec: a RegressionModel (§3); the spec's
`condition_number` diagnostic is omitted (no claim touches it). -/
structure RegressionModel where
  predictor_names : List String
  coefficients : List (String × ℝ)
  intercept : ℝ
  r_squared : ℝ
  residuals : List ℝ

/-- Modelled from the spec: the configuration options of §6. -/
structure Config where
  normality_epsilon : ℝ
  power_lambda_grid : List ℝ
  min_sample_size : ℕ
  rank_condition_threshold : ℝ

/-- Modelled from the spec: the default lambda grid −2.0..2.0 step 0.1. -/
noncomputable def defaultLambdaGrid : List ℝ :=
  (List.range 41).map fun i => (i : ℝ) / 10 - 2

/-- Modelled from the spec: the default configuration of §6. -/
noncomputable def defaultConfig : Config :=
  ⟨1e-6, defaultLambdaGrid, 8, 1e8⟩

/-- Minimum of a list of reals (`none` on the empty list). -/
def minList : List ℝ → Option ℝ
  | [] => none
  | x :: xs => some (xs.foldl min x)

lemma foldl_min_le (xs : List ℝ) (a : ℝ) :
    xs.foldl min a ≤ a ∧ ∀ x ∈ xs, xs.foldl min a ≤ x := by
  induction xs generalizing a with
  | nil => exact ⟨le_refl a, by simp⟩
  | cons y ys ih =>
    have h := ih (min a y)
    refine ⟨le_trans h.1 (min_le_left a y), ?_⟩
    intro x hx
    rcases List.mem_cons.mp hx with rfl | hx
    · exact le_trans h.1 (min_le_right a _)
    · exact h.2 x hx

lemma minList_le {l : List ℝ} {m : ℝ} (hm : minList l = some m) :
    ∀ x ∈ l, m ≤ x := by
  cases l with
  | nil => simp [minList] at hm
  | cons a xs =>
    simp only [minList, Option.some.injEq] at hm
    intro x hx
    rcases List.mem_cons.mp hx with rfl | hx
    · exact hm ▸ (foldl_min_le xs x).1
    · exact hm ▸ (foldl_min_le xs a).2 x hx

namespace TransformCatalog

/-- Modelled from the spec (§4.2): the shift rule shared by `log`,
`inverse` and `box-cox` — if the raw minimum of the non-missing values
is ≤ 0, shift by `1 - min` so the smallest value maps to 1. -/
noncomputable def autoShiftPos (values : List (Option ℝ)) : ℝ :=
  match minList (values.filterMap id) with
  | none => 0
  | some m => if m ≤ 0 then 1 - m else 0

/-- Modelled from the spec (§4.2): the `sqrt` shift rule — same rule as
`log` but targeting ≥ 0: a negative raw minimum is shifted to 0. -/
noncomputable def autoShiftNonneg (values : List (Option ℝ)) : ℝ :=
  match minList (values.filterMap id) with
  | none => 0
  | some m => if m < 0 then -m else 0

/-- Modelled from the spec (§4.2): pointwise application of one transform
kind at a given shift and lambda. -/
noncomputable def applyValue (k : Kind) (shift lambda x : ℝ) : ℝ :=
  match k with
  | .identity => x
  | .log => Real.log (x + shift)
  | .sqrt => Real.sqrt (x + shift)
  | .inverse => 1 / (x + shift)
  | .boxCox =>
    if lambda = 0 then Real.log (x + shift)
    else ((x + shift) ^ lambda - 1) / lambda
  | .yeoJohnson =>
    if 0 ≤ x then
      if lambda = 0 then Real.log (x + 1)
      else ((x + 1) ^ lambda - 1) / lambda
    else
      if lambda = 2 then -Real.log (1 - x)
      else -(((1 - x) ^ (2 - lambda)) - 1) / (2 - lambda)

/-- Modelled from the spec (§4.2): pointwise inverse of `applyValue`. -/
noncomputable def invertValue (k : Kind) (shift lambda y : ℝ) : ℝ :=
  match k with
  | .identity => y
  | .log => Real.exp y - shift
  | .sqrt => y ^ 2 - shift
  | .inverse => 1 / y - shift
  | .boxCox =>
    if lambda = 0 then Real.exp y - shift
    else (lambda * y + 1) ^ (1 / lambda) - shift
  | .yeoJohnson =>
    if 0 ≤ y then
      if lambda = 0 then Real.exp y - 1
      else (lambda * y + 1) ^ (1 / lambda) - 1
    else
      if lambda = 2 then 1 - Real.exp (-y)
      else 1 - (1 - (2 - lambda) * y) ^ (1 / (2 - lambda))

/-- Modelled from the spec (§4.2): `apply(kind, values, shift, lambda)`,
missing entries retaining their row position. -/
noncomputable def apply (k : Kind) (values : List (Option ℝ)) (shift lambda : ℝ) :
    List (Option ℝ) :=
  values.map (Option.map (applyValue k shift lambda))

/-- Modelled from the spec (§4.2): `invert(kind, values, shift, lambda)`. -/
noncomputable def invert (k : Kind) (values : List (Option ℝ)) (shift lambda : ℝ) :
    List (Option ℝ) :=
  values.map (Option.map (invertValue k shift lambda))

/-- Modelled from the spec (§4.2): the pointwise legal domain of each kind
(after the shift): `log`, `inverse` and `box-cox` need shifted values
> 0, `sqrt` needs ≥ 0, `identity` and `yeo-johnson` accept any reals. -/
def domCond (k : Kind) (shift x : ℝ) : Prop :=
  match k with
  | .identity => True
  | .log => 0 < x + shift
  | .sqrt => 0 ≤ x + shift
  | .inverse => 0 < x + shift
  | .boxCox => 0 < x + shift
  | .yeoJohnson => True

/-- Modelled from the spec (§4.2): a value sequence is inside a
transform's legal domain when every non-missing entry is. -/
def legalDomain (k : Kind) (shift : ℝ) (values : List (Option ℝ)) : Prop :=
  ∀ x : ℝ, some x ∈ values → domCond k shift x

end TransformCatalog

namespace TransformCatalog

lemma rpow_self_inv {a l : ℝ} (ha : 0 ≤ a) (hl : l ≠ 0) : (a ^ l) ^ (1 / l) = a := by
  rw [← Real.rpow_mul ha, mul_one_div_cancel hl, Real.rpow_one]

lemma yj_apply_nonneg (lambda : ℝ) {x : ℝ} (hx : 0 ≤ x) (s : ℝ) :
    0 ≤ applyValue .yeoJohnson s lambda x := by
  have h1 : (1:ℝ) ≤ x + 1 := by linarith
  simp only [applyValue, if_pos hx]
  by_cases hl : lambda = 0
  · rw [if_pos hl]
    exact Real.log_nonneg h1
  · rw [if_neg hl]
    rcases lt_or_gt_of_ne hl with hneg | hpos
    · have hle : (x + 1) ^ lambda ≤ 1 :=
        Real.rpow_le_one_of_one_le_of_nonpos h1 (le_of_lt hneg)
      exact div_nonneg_iff.mpr (Or.inr ⟨by linarith, le_of_lt hneg⟩)
    · have hge : (1:ℝ) ≤ (x + 1) ^ lambda := Real.one_le_rpow h1 (le_of_lt hpos)
      exact div_nonneg (by linarith) (le_of_lt hpos)

lemma yj_apply_neg (lambda : ℝ) {x : ℝ} (hx : x < 0) (s : ℝ) :
    applyValue .yeoJohnson s lambda x < 0 := by
  have hu : (1:ℝ) < 1 - x := by linarith
  have hu0 : (0:ℝ) < 1 - x := by linarith
  simp only [applyValue, if_neg (not_le.mpr hx)]
  by_cases hl : lambda = 2
  · rw [if_pos hl]
    have := Real.log_pos hu
    linarith
  · rw [if_neg hl]
    have hs : 2 - lambda ≠ 0 := sub_ne_zero_of_ne (Ne.symm hl)
    rcases lt_or_gt_of_ne hs with hneg | hpos
    · have hlt : (1 - x) ^ (2 - lambda) < 1 :=
        Real.rpow_lt_one_of_one_lt_of_neg hu hneg
      have hq : 0 < ((1 - x) ^ (2 - lambda) - 1) / (2 - lambda) :=
        div_pos_of_neg_of_neg (by linarith) hneg
      rw [neg_div]
      linarith
    · have hlt : 1 < (1 - x) ^ (2 - lambda) :=
        (Real.one_lt_rpow_iff_of_pos hu0).mpr (Or.inl ⟨hu, hpos⟩)
      have hq : 0 < ((1 - x) ^ (2 - lambda) - 1) / (2 - lambda) :=
        div_pos (by linarith) hpos
      rw [neg_div]
      linarith

/-- Pointwise exact inversion of every transform kind on its legal domain. -/
lemma invertValue_applyValue (k : Kind) (shift lambda x : ℝ) (h : domCond k shift x) :
    invertValue k shift lambda (applyValue k shift lambda x) = x := by
  cases k with
  | identity => rfl
  | log =>
    have hx : 0 < x + shift := h
    simp only [applyValue, invertValue, Real.exp_log hx]
    ring
  | sqrt =>
    have hx : 0 ≤ x + shift := h
    simp only [applyValue, invertValue, Real.sq_sqrt hx]
    ring
  | inverse =>
    have hx : 0 < x + shift := h
    simp only [applyValue, invertValue, one_div_one_div]
    ring
  | boxCox =>
    have hx : 0 < x + shift := h
    by_cases hl : lambda = 0
    · simp only [applyValue, invertValue, if_pos hl, Real.exp_log hx]
      ring
    · simp only [applyValue, invertValue, if_neg hl]
      have key : lambda * (((x + shift) ^ lambda - 1) / lambda) + 1
          = (x + shift) ^ lambda := by
        field_simp
      rw [key, rpow_self_inv (le_of_lt hx) hl]
      ring
  | yeoJohnson =>
    by_cases hx : 0 ≤ x
    · have hy := yj_apply_nonneg lambda hx shift
      have h1 : (0:ℝ) < x + 1 := by linarith
      by_cases hl : lambda = 0
      · simp only [applyValue, if_pos hx, if_pos hl] at hy ⊢
        simp only [invertValue, if_pos hy, if_pos hl, Real.exp_log h1]
        ring
      · simp only [applyValue, if_pos hx, if_neg hl] at hy ⊢
        simp only [invertValue, if_pos hy, if_neg hl]
        have key : lambda * (((x + 1) ^ lambda - 1) / lambda) + 1 = (x + 1) ^ lambda := by
          field_simp
        rw [key, rpow_self_inv (le_of_lt h1) hl]
        ring
    · have hxneg : x < 0 := not_le.mp hx
      have hy := yj_apply_neg lambda hxneg shift
      have hu0 : (0:ℝ) < 1 - x := by linarith
      by_cases hl : lambda = 2
      · simp only [applyValue, if_neg hx, if_pos hl] at hy ⊢
        simp only [invertValue, if_neg (not_le.mpr hy), if_pos hl, neg_neg,
          Real.exp_log hu0]
        ring
      · have hs : 2 - lambda ≠ 0 := sub_ne_zero_of_ne (Ne.symm hl)
        simp only [applyValue, if_neg hx, if_neg hl] at hy ⊢
        simp only [invertValue, if_neg (not_le.mpr hy), if_neg hl]
        have key : 1 - (2 - lambda) * (-(((1 - x) ^ (2 - lambda)) - 1) / (2 - lambda))
            = (1 - x) ^ (2 - lambda) := by
          field_simp
        rw [key, rpow_self_inv (le_of_lt hu0) hs]
        ring

end TransformCatalog

/-- C1: for every supported transform kind and every value sequence inside
that kind's legal domain (after the shift), `invert` applied to `apply`
returns the original values exactly — in particular within the spec's
1e-9 relative tolerance — with missing entries kept in place. -/
theorem invert_apply_roundtrip (k : Kind) (shift lambda : ℝ)
    (values : List (Option ℝ)) (h : TransformCatalog.legalDomain k shift values) :
    TransformCatalog.invert k (TransformCatalog.apply k values shift lambda)
      shift lambda = values := by
  induction values with
  | nil => rfl
  | cons o os ih =>
    have hos : TransformCatalog.legalDomain k shift os := fun x hx =>
      h x (List.mem_cons_of_mem _ hx)
    have htail := ih hos
    have hhead : Option.map (TransformCatalog.invertValue k shift lambda)
        (Option.map (TransformCatalog.applyValue k shift lambda) o) = o := by
      cases o with
      | none => rfl
      | some x =>
        have hd : TransformCatalog.domCond k shift x := h x (List.mem_cons_self _ _)
        simp [TransformCatalog.invertValue_applyValue k shift lambda x hd]
    calc
      TransformCatalog.invert k
          (TransformCatalog.apply k (o :: os) shift lambda) shift lambda
        = (Option.map (TransformCatalog.invertValue k shift lambda)
            (Option.map (TransformCatalog.applyValue k shift lambda) o)) ::
          TransformCatalog.invert k
            (TransformCatalog.apply k os shift lambda) shift lambda := rfl
      _ = o :: os := by rw [hhead, htail]

/-- Witness for C1: the log transform round-trips on `[some 1, none]`
with shift 0. -/
theorem invert_apply_roundtrip_witness :
    TransformCatalog.legalDomain Kind.log 0 [some 1, none]
    ∧ TransformCatalog.invert Kind.log
        (TransformCatalog.apply Kind.log [some 1, none] 0 0) 0 0 = [some 1, none] := by
  have hdom : TransformCatalog.legalDomain Kind.log 0 [some 1, none] := by
    intro x hx
    simp only [List.mem_cons, Option.some.injEq, List.not_mem_nil, or_false,
      reduceCtorEq] at hx
    subst hx
    show (0:ℝ) < 1 + 0
    norm_num
  exact ⟨hdom, invert_apply_roundtrip Kind.log 0 0 [some 1, none] hdom⟩

/-- C6: for the log transform, when the raw minimum `m` of the values is
≤ 0, the catalog's additive shift is `1 - m`; every non-missing value is
then strictly positive after shifting, the smallest shifted value equals
1 (every shifted value is ≥ 1 and `m` shifts exactly to 1), and the log
transform maps the raw minimum to `log 1 = 0`. -/
theorem log_autoshift (values : List (Option ℝ)) (m : ℝ)
    (hm : minList (values.filterMap id) = some m) (h0 : m ≤ 0) :
    TransformCatalog.autoShiftPos values = 1 - m
    ∧ (∀ x : ℝ, some x ∈ values → 0 < x + TransformCatalog.autoShiftPos values)
    ∧ (∀ x : ℝ, some x ∈ values → 1 ≤ x + TransformCatalog.autoShiftPos values)
    ∧ m + TransformCatalog.autoShiftPos values = 1
    ∧ TransformCatalog.applyValue Kind.log (TransformCatalog.autoShiftPos values) 0 m
        = 0 := by
  have hsh : TransformCatalog.autoShiftPos values = 1 - m := by
    simp [TransformCatalog.autoShiftPos, hm, if_pos h0]
  have hmem : ∀ x : ℝ, some x ∈ values → m ≤ x := by
    intro x hx
    exact minList_le hm x (List.mem_filterMap.mpr ⟨some x, hx, rfl⟩)
  refine ⟨hsh, ?_, ?_, ?_, ?_⟩
  · intro x hx
    have := hmem x hx
    rw [hsh]
    linarith
  · intro x hx
    have := hmem x hx
    rw [hsh]
    linarith
  · rw [hsh]
    ring
  · rw [hsh]
    show Real.log (m + (1 - m)) = 0
    have h1 : m + (1 - m) = 1 := by ring
    rw [h1, Real.log_one]

/-- Witness for C6: values `[-2, 3]` have raw minimum `-2 ≤ 0`, so the
shift is `1 - (-2) = 3`. -/
theorem log_autoshift_witness :
    minList ([some (-2), some 3].filterMap id) = some (-2)
    ∧ (-2:ℝ) ≤ 0
    ∧ TransformCatalog.autoShiftPos [some (-2), some 3] = 1 - (-2) := by
  have hm : minList ([some (-2:ℝ), some 3].filterMap id) = some (-2) := by
    show some (min (-2:ℝ) 3) = some (-2)
    rw [min_eq_left (by norm_num)]
  exact ⟨hm, by norm_num, (log_autoshift [some (-2), some 3] (-2) hm (by norm_num)).1⟩

namespace NormalityScorer

noncomputable def sampleMean (xs : List ℝ) : ℝ := xs.sum / xs.length

/-- Population variance of a sample. -/
noncomputable def sampleVar (xs : List ℝ) : ℝ :=
  (xs.map fun x => (x - sampleMean xs) ^ 2).sum / xs.length

/-- Standardized skewness of a sample. -/
noncomputable def sampleSkew (xs : List ℝ) : ℝ :=
  (xs.map fun x => ((x - sampleMean xs) / Real.sqrt (sampleVar xs)) ^ 3).sum / xs.length

/-- Excess kurtosis of a sample. -/
noncomputable def sampleExKurt (xs : List ℝ) : ℝ :=
  (xs.map fun x => ((x - sampleMean xs) / Real.sqrt (sampleVar xs)) ^ 4).sum
    / xs.length - 3

open Classical in
/-- Modelled from the spec (§4.1): the score on the missing-filtered
values — reject with `InsufficientDataError` below `min_sample_size`
non-missing values, with `DegenerateVarianceError` on zero variance, else
`1 / (1 + |skewness| + |excess kurtosis|)`. -/
noncomputable def scoreValues (cfg : Config) (xs : List ℝ) : Except PipelineError ℝ :=
  if xs.length < cfg.min_sample_size then .error .insufficientData
  else if sampleVar xs = 0 then .error .degenerateVariance
  else .ok (1 / (1 + |sampleSkew xs| + |sampleExKurt xs|))

/-- Modelled from the spec (§4.1): `score(values)`, missing entries
excluded before scoring. -/
noncomputable def score (cfg : Config) (values : List (Option ℝ)) :
    Except PipelineError ℝ :=
  scoreValues cfg (values.filterMap id)

end NormalityScorer

/-- C5: a value sequence with fewer than `min_sample_size` (default 8)
non-missing entries makes `NormalityScorer.score` fail with
`InsufficientDataError` instead of returning a score. -/
theorem score_insufficient (cfg : Config) (values : List (Option ℝ))
    (h : (values.filterMap id).length < cfg.min_sample_size) :
    NormalityScorer.score cfg values = .error .insufficientData := by
  simp [NormalityScorer.score, NormalityScorer.scoreValues, if_pos h]

/-- Witness for C5: two non-missing values are fewer than the default
minimum sample size 8. -/
theorem score_insufficient_witness :
    ([some (1:ℝ), none, some 2].filterMap id).length < defaultConfig.min_sample_size
    ∧ NormalityScorer.score defaultConfig [some 1, none, some 2]
        = .error .insufficientData := by
  have h : ([some (1:ℝ), none, some 2].filterMap id).length
      < defaultConfig.min_sample_size := by
    show 2 < 8
    norm_num
  exact ⟨h, score_insufficient defaultConfig _ h⟩

namespace DatasetTransformer

/-- Modelled from the spec (§4.4): apply each variable's chosen
TransformSpec via the catalog, producing a new Dataset with identical row
keys and order; a variable without a report is carried over unchanged.
The embedding is a pure function, so the input Dataset cannot be mutated
and the result is a fresh value. -/
noncomputable def transform (ds : Dataset)
    (reports : List (String × NormalityReport)) : Dataset :=
  { rows := ds.rows
    vars := ds.vars.map fun p =>
      match reports.lookup p.1 with
      | some r =>
        (p.1, { p.2 with
            values := TransformCatalog.apply r.chosen.kind p.2.values
              r.chosen.shift r.chosen.lambda })
      | none => p }

/-- Modelled from the spec (§4.4): `invert_column` maps a transformed
column back to original units via the recorded TransformSpec. -/
noncomputable def invert_column (reports : List (String × NormalityReport))
    (name : String) (transformed : List (Option ℝ)) : List (Option ℝ) :=
  match reports.lookup name with
  | some r =>
    TransformCatalog.invert r.chosen.kind transformed r.chosen.shift r.chosen.lambda
  | none => transformed

end DatasetTransformer

/-- C4: `DatasetTransformer.transform` returns a Dataset whose row-key
sequence is identical (same keys, same order) to the input's and whose
variable names appear in the same order; being a pure function of its
arguments, it leaves the input Dataset completely unchanged. -/
theorem transform_preserves_rows (ds : Dataset)
    (reports : List (String × NormalityReport)) :
    (DatasetTransformer.transform ds reports).rows = ds.rows
    ∧ (DatasetTransformer.transform ds reports).vars.map Prod.fst
        = ds.vars.map Prod.fst := by
  refine ⟨rfl, ?_⟩
  simp only [DatasetTransformer.transform, List.map_map]
  apply List.map_congr_left
  intro p _
  cases hl : reports.lookup p.1 with
  | none => simp [hl]
  | some r => simp [hl]

/-- The identity no-op TransformSpec. -/
noncomputable def identitySpec : TransformSpec := ⟨.identity, 0, 0⟩

namespace TransformSelector

/-- Modelled from the spec (§4.2/§4.3): transform kinds legal under a unit
domain — the auto-shift makes the domain-restricted kinds applicable
everywhere, Yeo-Johnson is the unrestricted-domain fallback, identity is
the implicit baseline rather than a searched candidate. -/
def legalKinds : UnitDomain → List Kind
  | .unrestricted => [.log, .sqrt, .inverse, .boxCox, .yeoJohnson]
  | .positiveOnly => [.log, .sqrt, .inverse, .boxCox]
  | .nonNegative => [.log, .sqrt, .inverse, .boxCox]

/-- Modelled from the spec (§4.2): the shift attached to a candidate of
each kind. -/
noncomputable def shiftForKind (k : Kind) (values : List (Option ℝ)) : ℝ :=
  match k with
  | .log => TransformCatalog.autoShiftPos values
  | .inverse => TransformCatalog.autoShiftPos values
  | .boxCox => TransformCatalog.autoShiftPos values
  | .sqrt => TransformCatalog.autoShiftNonneg values
  | _ => 0

/-- Modelled from the spec (§4.3): the candidate TransformSpecs searched
for one variable — one candidate per legal simple kind, one per grid
lambda for the power-family kinds. -/
noncomputable def candidateSpecs (cfg : Config) (v : Variable) : List TransformSpec :=
  (legalKinds v.unit_domain).flatMap fun k =>
    match k with
    | .boxCox =>
      cfg.power_lambda_grid.map fun l => ⟨.boxCox, shiftForKind .boxCox v.values, l⟩
    | .yeoJohnson => cfg.power_lambda_grid.map fun l => ⟨.yeoJohnson, 0, l⟩
    | k => [⟨k, shiftForKind k v.values, 0⟩]

/-- Modelled from the spec (§4.3/§7): every candidate applied and scored;
a candidate whose scoring fails is skipped rather than aborting. -/
noncomputable def scoredCandidates (scorer : List (Option ℝ) → Except PipelineError ℝ)
    (cfg : Config) (v : Variable) : List (TransformSpec × ℝ) :=
  (candidateSpecs cfg v).filterMap fun s =>
    match scorer (TransformCatalog.apply s.kind v.values s.shift s.lambda) with
    | .ok sc => some (s, sc)
    | .error _ => none

/-- The maximum-score candidate (the earlier candidate wins exact ties,
matching the spec's preference for simpler transforms, which come first
in the candidate list). -/
noncomputable def bestCandidate :
    List (TransformSpec × ℝ) → Option (TransformSpec × ℝ)
  | [] => none
  | p :: ps => some (ps.foldl (fun a b => if b.2 > a.2 then b else a) p)

open Classical in
/-- Modelled from the spec (§4.3): `select`, parameterized by the scoring
function consulted (instantiated with `NormalityScorer.score` in
`select`): score the untransformed variable (`score_before`), find the
maximum-scoring candidate, and return it only when it improves on
`score_before` by more than the epsilon — otherwise `chosen` is the
identity no-op. -/
noncomputable def selectWith (scorer : List (Option ℝ) → Except PipelineError ℝ)
    (cfg : Config) (v : Variable) : Except PipelineError NormalityReport :=
  match scorer v.values with
  | .error e => .error e
  | .ok sb =>
    match bestCandidate (scoredCandidates scorer cfg v) with
    | some (s, sc) =>
      if sc > sb + cfg.normality_epsilon then .ok ⟨sb, sc, s⟩
      else .ok ⟨sb, sb, identitySpec⟩
    | none => .ok ⟨sb, sb, identitySpec⟩

/-- Modelled from the spec (§4.3): `select(variable)`. -/
noncomputable def select (cfg : Config) (v : Variable) :
    Except PipelineError NormalityReport :=
  selectWith (NormalityScorer.score cfg) cfg v

end TransformSelector

lemma foldl_best_mem (p : TransformSpec × ℝ) (ps : List (TransformSpec × ℝ)) :
    ps.foldl (fun a b => if b.2 > a.2 then b else a) p ∈ p :: ps := by
  induction ps generalizing p with
  | nil => simp
  | cons q qs ih =>
    rw [List.foldl_cons]
    rcases List.mem_cons.mp (ih (if q.2 > p.2 then q else p)) with heq | hmem
    · rw [heq]
      by_cases hc : q.2 > p.2
      · simp [hc]
      · simp [hc]
    · exact List.mem_cons_of_mem _ (List.mem_cons_of_mem _ hmem)

lemma bestCandidate_mem {l : List (TransformSpec × ℝ)} {p : TransformSpec × ℝ}
    (h : TransformSelector.bestCandidate l = some p) : p ∈ l := by
  cases l with
  | nil => simp [TransformSelector.bestCandidate] at h
  | cons q qs =>
    simp only [TransformSelector.bestCandidate, Option.some.injEq] at h
    exact h ▸ foldl_best_mem q qs

/-- C3: whenever the selector succeeds and no scored candidate exceeds
`score_before` by more than the configured epsilon, the chosen transform
is the identity; equivalently, the selector never returns a non-identity
transform that fails to beat `score_before` by more than epsilon.  Stated
for `selectWith` with the scoring function universally quantified, hence
in particular for `TransformSelector.select` (which instantiates it with
`NormalityScorer.score`). -/
theorem select_no_improvement_identity
    (scorer : List (Option ℝ) → Except PipelineError ℝ) (cfg : Config)
    (v : Variable) (r : NormalityReport)
    (hr : TransformSelector.selectWith scorer cfg v = .ok r)
    (hb : ∀ p ∈ TransformSelector.scoredCandidates scorer cfg v,
      p.2 ≤ r.score_before + cfg.normality_epsilon) :
    r.chosen.kind = Kind.identity := by
  unfold TransformSelector.selectWith at hr
  cases hs : scorer v.values with
  | error e =>
    rw [hs] at hr
    exact Except.noConfusion hr
  | ok sb =>
    rw [hs] at hr
    cases hbest : TransformSelector.bestCandidate
        (TransformSelector.scoredCandidates scorer cfg v) with
    | none =>
      rw [hbest] at hr
      cases hr
      rfl
    | some p =>
      rw [hbest] at hr
      obtain ⟨s, sc⟩ := p
      have hr' : (if sc > sb + cfg.normality_epsilon then
          (Except.ok ⟨sb, sc, s⟩ : Except PipelineError NormalityReport)
          else .ok ⟨sb, sb, identitySpec⟩) = .ok r := hr
      by_cases hc : sc > sb + cfg.normality_epsilon
      · rw [if_pos hc] at hr'
        cases hr'
        have hmem := bestCandidate_mem hbest
        exact absurd (hb (s, sc) hmem) (not_le.mpr hc)
      · rw [if_neg hc] at hr'
        cases hr'
        rfl

/-- A scorer returning 0 on every input, used to witness the selector. -/
noncomputable def zeroScorer : List (Option ℝ) → Except PipelineError ℝ :=
  fun _ => .ok 0

/-- A configuration with an empty power-lambda grid, used for witnessing. -/
noncomputable def cfgNoGrid : Config := ⟨1e-6, [], 8, 1e8⟩

/-- A one-value positive variable, used for witnessing. -/
noncomputable def varW : Variable := ⟨"w", [some 1], UnitDomain.positiveOnly⟩

/-- The identity report the selector returns on `varW`. -/
noncomputable def reportW : NormalityReport := ⟨0, 0, identitySpec⟩

/-- Witness for C3: with a constant scorer no candidate beats
`score_before` by more than epsilon, and the chosen kind is identity. -/
theorem select_no_improvement_identity_witness :
    TransformSelector.selectWith zeroScorer cfgNoGrid varW = .ok reportW
    ∧ reportW.chosen.kind = Kind.identity := by
  have hEval : TransformSelector.selectWith zeroScorer cfgNoGrid varW = .ok reportW := by
    simp only [TransformSelector.selectWith, TransformSelector.scoredCandidates,
      TransformSelector.candidateSpecs, TransformSelector.legalKinds,
      TransformSelector.bestCandidate, zeroScorer, cfgNoGrid, varW, reportW]
    norm_num [List.filterMap_cons, List.foldl_cons, List.foldl_nil]
  have hBound : ∀ p ∈ TransformSelector.scoredCandidates zeroScorer cfgNoGrid varW,
      p.2 ≤ reportW.score_before + cfgNoGrid.normality_epsilon := by
    intro p hp
    simp only [TransformSelector.scoredCandidates, TransformSelector.candidateSpecs,
      TransformSelector.legalKinds, zeroScorer, cfgNoGrid, varW] at hp
    simp at hp
    rcases hp with rfl | rfl | rfl <;>
      · show (0:ℝ) ≤ 0 + 1e-6
        norm_num
  exact ⟨hEval,
    select_no_improvement_identity zeroScorer cfgNoGrid varW reportW hEval hBound⟩

namespace RegressionEngine

/-- Modelled from the spec (§4.5): the value columns of the named
variables, or `none` when any name is absent from the dataset. -/
def getColumns (ds : Dataset) (names : List String) :
    Option (List (List (Option ℝ))) :=
  names.mapM fun n => (ds.vars.lookup n).map Variable.values

/-- Row count of a column set. -/
def nRows (cols : List (List (Option ℝ))) : ℕ :=
  (cols.headD []).length

/-- Modelled from the spec (§4.5): rows with a missing value in the
target or any selected predictor are excluded from the fit. -/
def completeRows (cols : List (List (Option ℝ))) : List (List ℝ) :=
  (List.range (nRows cols)).filterMap fun i =>
    (cols.map fun c => c.getD i none).mapM id

/-- Design-matrix entry of one predictor-value row: column 0 is the
intercept, column `j + 1` the `j`-th selected predictor. -/
def designEntry (xs : List ℝ) (j : ℕ) : ℝ :=
  if j = 0 then 1 else xs.getD (j - 1) 0

/-- Modelled from the spec (§4.5 and glossary): the design matrix built
from predictor rows `X` plus the intercept column has full column rank —
only the zero coefficient vector annihilates every row. -/
def fullColumnRank (k : ℕ) (X : List (List ℝ)) : Prop :=
  ∀ v : Fin (k + 1) → ℝ,
    (∀ r ∈ X, (∑ j : Fin (k + 1), designEntry r (j : ℕ) * v j) = 0) → v = 0

/-- Modelled from the spec (§4.5): the least-squares solve by normal
equations over the complete rows — coefficients, intercept, residuals and
R² (the spec's condition-number diagnostic is omitted). -/
noncomputable def olsModel (preds : List String) (X : List (List ℝ))
    (y : List ℝ) : RegressionModel :=
  let k := preds.length
  let m := X.length
  let A : Matrix (Fin m) (Fin (k + 1)) ℝ :=
    Matrix.of fun i j => designEntry (X.getD (i : ℕ) []) (j : ℕ)
  let b : Fin m → ℝ := fun i => y.getD (i : ℕ) 0
  let beta : Fin (k + 1) → ℝ := ((A.transpose * A)⁻¹ * A.transpose).mulVec b
  let fitted : Fin m → ℝ := A.mulVec beta
  let ybar : ℝ := (∑ i, b i) / m
  { predictor_names := preds
    coefficients := preds.zip (List.ofFn fun j : Fin k => beta j.succ)
    intercept := beta 0
    r_squared := 1 - (∑ i, (b i - fitted i) ^ 2) / (∑ i, (b i - ybar) ^ 2)
    residuals := List.ofFn fun i => b i - fitted i }

open Classical in
/-- Modelled from the spec (§4.5): `fit(dataset, target, predictors)` —
look up the target and predictor columns, drop incomplete rows, and fail
with `RankDeficiencyError` unless the design matrix (selected predictors
plus intercept) has full column rank; otherwise solve least squares. -/
noncomputable def fit (ds : Dataset) (target : String) (preds : List String) :
    Except PipelineError RegressionModel :=
  match getColumns ds (target :: preds) with
  | none => .error .schemaMismatch
  | some cols =>
    let rows := completeRows cols
    if fullColumnRank preds.length (rows.map (List.drop 1)) then
      .ok (olsModel preds (rows.map (List.drop 1)) (rows.map fun r => r.headD 0))
    else .error .rankDeficiency

/-- Modelled from the spec (§4.5): `predict(model, new_rows)` — fails with
`SchemaMismatchError` when `new_rows` lacks any `predictor_names` column,
else applies the stored coefficients to a design matrix built the same
way over the complete rows. -/
noncomputable def predict (model : RegressionModel) (new_rows : Dataset) :
    Except PipelineError (List ℝ) :=
  if model.predictor_names.all fun n => (new_rows.vars.lookup n).isSome then
    match getColumns new_rows model.predictor_names with
    | none => .error .schemaMismatch
    | some cols =>
      .ok ((completeRows cols).map fun r =>
        model.intercept + ∑ j : Fin model.predictor_names.length,
          ((model.coefficients.lookup (model.predictor_names.getD (j : ℕ) "")).getD 0)
            * r.getD (j : ℕ) 0)
  else .error .schemaMismatch

end RegressionEngine

/-- C2: whenever the design matrix assembled from the selected predictor
columns plus the intercept column is not of full column rank,
`RegressionEngine.fit` fails with `RankDeficiencyError` instead of
returning a RegressionModel. -/
theorem fit_rank_deficient (ds : Dataset) (target : String)
    (preds : List String) (cols : List (List (Option ℝ)))
    (hcols : RegressionEngine.getColumns ds (target :: preds) = some cols)
    (hrank : ¬ RegressionEngine.fullColumnRank preds.length
      ((RegressionEngine.completeRows cols).map (List.drop 1))) :
    RegressionEngine.fit ds target preds = .error .rankDeficiency := by
  unfold RegressionEngine.fit
  rw [hcols]
  exact if_neg hrank

/-- A dataset whose two selected predictor columns are identical. -/
noncomputable def dsDup : Dataset :=
  ⟨["a", "b"],
   [("y", ⟨"y", [some 1, some 2], UnitDomain.unrestricted⟩),
    ("x1", ⟨"x1", [some 1, some 2], UnitDomain.unrestricted⟩),
    ("x2", ⟨"x2", [some 1, some 2], UnitDomain.unrestricted⟩)]⟩

/-- The columns `fit` extracts from `dsDup` for target `y` and
predictors `x1`, `x2`. -/
noncomputable def colsDup : List (List (Option ℝ)) :=
  [[some 1, some 2], [some 1, some 2], [some 1, some 2]]

/-- Witness for C2: two identical predictor columns make the design
matrix rank deficient, and `fit` fails with `RankDeficiencyError`. -/
theorem fit_rank_deficient_witness :
    RegressionEngine.getColumns dsDup ["y", "x1", "x2"] = some colsDup
    ∧ RegressionEngine.fit dsDup "y" ["x1", "x2"] = .error .rankDeficiency := by
  have hcols : RegressionEngine.getColumns dsDup ["y", "x1", "x2"] = some colsDup := rfl
  have hX : (RegressionEngine.completeRows colsDup).map (List.drop 1)
      = [[(1:ℝ), 1], [2, 2]] := rfl
  have hrank : ¬ RegressionEngine.fullColumnRank 2
      ((RegressionEngine.completeRows colsDup).map (List.drop 1)) := by
    rw [hX]
    intro hfr
    have hz : ∀ r ∈ [[(1:ℝ), 1], [2, 2]],
        (∑ j : Fin 3, RegressionEngine.designEntry r (j : ℕ)
          * (![0, 1, -1] : Fin 3 → ℝ) j) = 0 := by
      intro r hr
      fin_cases hr <;>
        simp [Fin.sum_univ_three, RegressionEngine.designEntry]
    have h0 := hfr ![0, 1, -1] hz
    have h1 := congrFun h0 1
    simp at h1
  exact ⟨hcols, fit_rank_deficient dsDup "y" ["x1", "x2"] colsDup hcols hrank⟩

/-- C7: when `new_rows` lacks at least one column named in the model's
`predictor_names`, `RegressionEngine.predict` fails with
`SchemaMismatchError` instead of returning predictions. -/
theorem predict_schema_mismatch (model : RegressionModel) (new_rows : Dataset)
    (h : ∃ n ∈ model.predictor_names, new_rows.vars.lookup n = none) :
    RegressionEngine.predict model new_rows = .error .schemaMismatch := by
  obtain ⟨n, hn, hlook⟩ := h
  have hnot : ¬ ((model.predictor_names.all
      fun nm => (new_rows.vars.lookup nm).isSome) = true) := by
    intro hall
    have := List.all_eq_true.mp hall n hn
    rw [hlook] at this
    simp at this
  have hall : (model.predictor_names.all
      fun nm => (new_rows.vars.lookup nm).isSome) = false :=
    Bool.eq_false_iff.mpr hnot
  unfold RegressionEngine.predict
  rw [hall]
  rfl

/-- A model requiring predictor column `x1`, for witnessing. -/
noncomputable def modelW : RegressionModel := ⟨["x1"], [], 0, 0, []⟩

/-- A dataset with no columns at all, for witnessing. -/
def emptyDs : Dataset := ⟨[], []⟩

/-- Witness for C7: predicting from a dataset missing the model's only
predictor column fails with `SchemaMismatchError`. -/
theorem predict_schema_mismatch_witness :
    (∃ n ∈ modelW.predictor_names, emptyDs.vars.lookup n = none)
    ∧ RegressionEngine.predict modelW emptyDs = .error .schemaMismatch := by
  have h : ∃ n ∈ modelW.predictor_names, emptyDs.vars.lookup n = none :=
    ⟨"x1", by simp [modelW], rfl⟩
  exact ⟨h, predict_schema_mismatch modelW emptyDs h⟩
